import Mathlib

/-!
Verification development for the cronfleet-backend repository.

The development shallowly embeds the aggregation pipeline of
`src/app/services/local_cron_reader.py`, the two cron-line parsers of
`src/app/services/cron_parsing.py`, the next-occurrence calculator of
`src/app/services/schedule.py` and the record model of `src/app/models.py`.

Conventions of the embedding:
 * Python strings are Lean `String`s (lists of unicode code points); the
   Python helpers `str.strip`, `str.split`, `str.splitlines`, `str.join`,
   `str.startswith`, the `in` substring test and `str(int)` are re-implemented
   below as executable functions over `List Char` (for `splitlines`, only
   LF line endings are modelled).
 * Timestamps (`datetime`) are naturals counting minutes since
   2001-01-01 00:00 local time (2001-01-01 was a Monday).
 * The host (filesystem contents, the outcomes of the two external
   `crontab -l` queries, the two environment flags, the clock and the
   invoking account name) is a `HostState` record; each reader is a pure
   function of it, mirroring its Python method line by line.
 * The croniter library is not part of the repository's sources, so the
   calculator's engine is modelled from the spec (section 4.2 and the
   glossary): a 5-field cron expression (or named shortcut) is parsed into
   allowed value sets and the next fire times are the next matching minutes.
-/

/-! ## Python string primitives -/

/-- Python's notion of string whitespace (`str.split()` / `str.strip()`),
restricted to the ASCII whitespace characters. -/
def pyIsSpace (c : Char) : Bool :=
  c = ' ' || c = '\t' || c = '\n' || c = '\r' || c.toNat = 11 || c.toNat = 12

/-- Python `str.strip()`: drop leading and trailing whitespace. -/
def pyStrip (s : String) : String :=
  ⟨((s.data.dropWhile pyIsSpace).reverse.dropWhile pyIsSpace).reverse⟩

/-- Helper of `pySplit`: the accumulator holds the current token reversed. -/
def pySplitAux : List Char → List Char → List String
  | [], acc => if acc.isEmpty then [] else [String.mk acc.reverse]
  | c :: rest, acc =>
    if pyIsSpace c then
      if acc.isEmpty then pySplitAux rest []
      else String.mk acc.reverse :: pySplitAux rest []
    else pySplitAux rest (c :: acc)

/-- Python `str.split()` with no argument: maximal runs of non-whitespace. -/
def pySplit (s : String) : List String := pySplitAux s.data []

/-- Helper of `splitlinesPy`: split on a line feed. -/
def splitLinesAux : List Char → List Char → List String
  | [], acc => [String.mk acc.reverse]
  | c :: rest, acc =>
    if c = '\n' then String.mk acc.reverse :: splitLinesAux rest []
    else splitLinesAux rest (c :: acc)

/-- Python `str.splitlines()` over LF-terminated text: split on every line
feed, and drop the final empty piece a trailing line feed (or an empty
string) produces. -/
def splitlinesPy (s : String) : List String :=
  let parts := splitLinesAux s.data []
  match parts.getLast? with
  | some lastPart => if lastPart = "" then parts.dropLast else parts
  | none => parts

/-- Python `" ".join(parts)` (and any other separator). -/
def pyJoin (sep : String) : List String → String
  | [] => ""
  | [x] => x
  | x :: y :: rest => x ++ sep ++ pyJoin sep (y :: rest)

/-- Does the character list start with the given pattern? -/
def listStartsWith : List Char → List Char → Bool
  | _, [] => true
  | [], _ :: _ => false
  | a :: s, b :: t => a = b && listStartsWith s t

/-- Python `str.startswith`. -/
def pyStartsWith (s pre : String) : Bool := listStartsWith s.data pre.data

/-- Helper of `pyContainsStr`: does `needle` occur in the list? -/
def pyContainsAux (needle : List Char) : List Char → Bool
  | [] => needle.isEmpty
  | c :: rest => listStartsWith (c :: rest) needle || pyContainsAux needle rest

/-- Python `needle in hay` for strings: contiguous substring test. -/
def pyContainsStr (hay needle : String) : Bool := pyContainsAux needle.data hay.data

/-- Python `str(n)` for a natural: decimal digit characters, most significant
first.  `pyStrDigits` produces the digits least significant first; the fuel
`n + 1` always suffices since every step divides the number by 10. -/
def pyStrDigits : Nat → Nat → List Char
  | 0, _ => []
  | fuel + 1, n =>
    if n < 10 then [Char.ofNat (48 + n)]
    else Char.ofNat (48 + n % 10) :: pyStrDigits fuel (n / 10)

/-- Python `str(n)` for a natural number. -/
def pyStr (n : Nat) : String := ⟨(pyStrDigits (n + 1) n).reverse⟩

/-- Python `ch.isalnum() or ch == "_"` over ASCII, as used by the user-dialect
environment-assignment check. -/
def pyIsIdentChar (c : Char) : Bool := c.isAlphanum || c = '_'

/-! ## The cron-line parsers (`src/app/services/cron_parsing.py`) -/

/-- The transient parse result `ParsedCronLine` of `cron_parsing.py`. -/
structure ParsedCronLine where
  schedule : String
  user : String
  command : String
deriving DecidableEq, Repr

/-- `parse_system_cron_line` of `cron_parsing.py`: the dialect of
`/etc/crontab` and `/etc/cron.d/*` (5 schedule fields, a user field, then the
command; or an `@shortcut`, a user field and the command).  The `[] => none`
branch of the match is unreachable: `raw` is non-empty and stripped, so the
split is non-empty. -/
def parse_system_cron_line (line : String) : Option ParsedCronLine :=
  let raw := pyStrip line
  if raw = "" then none
  else if pyStartsWith raw "#" then none
  else
    let parts := pySplit raw
    if parts.length = 1 && (parts.headD "").data.contains '=' then none
    else match parts with
      | [] => none
      | p0 :: rest =>
        if pyStartsWith p0 "@" then
          if parts.length < 3 then none
          else some ⟨p0, rest.headD "", pyJoin " " (rest.drop 1)⟩
        else if parts.length < 7 then none
        else some ⟨pyJoin " " (parts.take 5), parts.getD 5 "", pyJoin " " (parts.drop 6)⟩

/-- `parse_user_cron_line` of `cron_parsing.py`: the `crontab -l` dialect
(no user field).  The environment-assignment gate is Python's
`if "=" in raw: key = raw.split("=", 1)[0].strip(); if key and all(...)`:
the text before the first `=` of the whole line, stripped, must be a
non-empty run of alphanumeric/underscore characters. -/
def parse_user_cron_line (line : String) : Option ParsedCronLine :=
  let raw := pyStrip line
  if raw = "" then none
  else if pyStartsWith raw "#" then none
  else if raw.data.contains '=' &&
      (let key := pyStrip ⟨raw.data.takeWhile (fun c => c ≠ '=')⟩
       !key.data.isEmpty && key.data.all pyIsIdentChar) then none
  else
    let parts := pySplit raw
    match parts with
    | [] => none
    | p0 :: rest =>
      if pyStartsWith p0 "@" then
        if parts.length < 2 then none
        else some ⟨p0, "", pyJoin " " rest⟩
      else if parts.length < 6 then none
      else some ⟨pyJoin " " (parts.take 5), "", pyJoin " " (parts.drop 5)⟩

/-! ## The next-occurrence calculator (`src/app/services/schedule.py`)

The engine behind `compute_next_runs` is the croniter library, which is not
part of the repository's sources.  Everything in this section up to
`compute_next_runs` is therefore modelled from the spec: section 4.2 and the
glossary define a cron expression as five whitespace-separated fields
(minute, hour, day-of-month, month, day-of-week) or a named shortcut, and the
calculator as producing the next fire times strictly after the start instant,
with any parse or computation failure converted into an empty result. -/

/-- Modelled from the spec: is `y` a leap year (proleptic Gregorian)? -/
def isLeap (y : Nat) : Bool := (y % 4 = 0 && y % 100 ≠ 0) || y % 400 = 0

/-- Modelled from the spec: the month lengths of year `y`. -/
def monthDays (y : Nat) : List Nat :=
  [31, if isLeap y then 29 else 28, 31, 30, 31, 30, 31, 31, 30, 31, 30, 31]

/-- Modelled from the spec: peel whole years off a day count, starting at the
epoch year 2001.  Returns the year and the zero-based day of that year; the
fuel only needs to exceed the number of years consumed. -/
def yearFromDays : Nat → Nat → Nat → Nat × Nat
  | 0, y, d => (y, d)
  | fuel + 1, y, d =>
    let len := if isLeap y then 366 else 365
    if d < len then (y, d) else yearFromDays fuel (y + 1) (d - len)

/-- Modelled from the spec: peel whole months off a zero-based day of year.
Returns the 1-based month and the zero-based day of that month. -/
def monthFromDays : List Nat → Nat → Nat → Nat × Nat
  | [], m, d => (m, d)
  | len :: rest, m, d => if d < len then (m, d) else monthFromDays rest (m + 1) (d - len)

/-- Modelled from the spec: the calendar date `(year, month, day-of-month)` of
an instant, an instant being minutes since 2001-01-01 00:00. -/
def dateOf (t : Nat) : Nat × Nat × Nat :=
  let d := t / 1440
  let yd := yearFromDays (d + 1) 2001 d
  let md := monthFromDays (monthDays yd.1) 1 yd.2
  (yd.1, md.1, md.2 + 1)

/-- Modelled from the spec: the cron day-of-week of an instant, `0` being
Sunday.  2001-01-01 (day 0 of the epoch) was a Monday. -/
def dowOf (t : Nat) : Nat := (t / 1440 + 1) % 7

/-- Modelled from the spec: a parsed 5-field cron expression.  A field is
`none` when it is the literal `*` (unrestricted) and otherwise the list of
allowed values; day-of-week values are stored modulo 7 (`7` means Sunday). -/
structure CronExpr where
  minute : Option (List Nat)
  hour : Option (List Nat)
  dom : Option (List Nat)
  month : Option (List Nat)
  dow : Option (List Nat)
deriving DecidableEq, Repr

/-- Modelled from the spec: parse a decimal numeral (digits only, non-empty). -/
def parseNatAux : List Char → Nat → Option Nat
  | [], acc => some acc
  | c :: rest, acc =>
    if c.isDigit then parseNatAux rest (acc * 10 + (c.toNat - 48)) else none

/-- Modelled from the spec: Python `int(s)` on a plain digit string. -/
def parseNatPy (s : String) : Option Nat :=
  match s.data with
  | [] => none
  | l => parseNatAux l 0

/-- Helper of `splitlinesPy`-style splitting on an arbitrary character. -/
def splitOnCharAux (sep : Char) : List Char → List Char → List String
  | [], acc => [String.mk acc.reverse]
  | c :: rest, acc =>
    if c = sep then String.mk acc.reverse :: splitOnCharAux sep rest []
    else splitOnCharAux sep rest (c :: acc)

/-- Split a string on every occurrence of a character (Python `str.split(sep)`). -/
def splitOnChar (sep : Char) (s : String) : List String := splitOnCharAux sep s.data []

/-- Modelled from the spec: the values `lo ≤ v ≤ hi` hit when stepping from
`lo` by `step`. -/
def rangeList (lo hi step : Nat) : List Nat :=
  (List.range' lo (hi + 1 - lo)).filter (fun v => (v - lo) % step = 0)

/-- Modelled from the spec: one comma-separated element of a cron field:
`*`, `*/step`, `a`, `a-b` or `a-b/step`, with `lo ≤ a ≤ b ≤ hi` and
`step ≥ 1`. -/
def parseFieldElem (lo hi : Nat) (tok : String) : Option (List Nat) :=
  let parts := splitOnChar '/' tok
  let withStep : Option (String × Nat) :=
    match parts with
    | [b] => some (b, 1)
    | [b, s] =>
      match parseNatPy s with
      | some st => if 1 ≤ st then some (b, st) else none
      | none => none
    | _ => none
  match withStep with
  | none => none
  | some bs =>
    if bs.1 = "*" then some (rangeList lo hi bs.2)
    else match splitOnChar '-' bs.1 with
      | [x] =>
        match parseNatPy x with
        | some v => if lo ≤ v && v ≤ hi && bs.2 = 1 then some [v] else none
        | none => none
      | [x, y] =>
        match parseNatPy x, parseNatPy y with
        | some a, some b => if lo ≤ a && a ≤ b && b ≤ hi then some (rangeList a b bs.2) else none
        | _, _ => none
      | _ => none

/-- Modelled from the spec: a whole cron field, `*` or a comma-separated list
of elements. -/
def parseField (lo hi : Nat) (tok : String) : Option (Option (List Nat)) :=
  if tok = "*" then some none
  else
    match (splitOnChar ',' tok).mapM (parseFieldElem lo hi) with
    | none => none
    | some ls => some (some ls.flatten)

/-- Modelled from the spec: the named shortcuts with a fixed cadence expand to
5-field expressions; `@reboot` has none and is not expanded. -/
def expandShortcut (s : String) : Option String :=
  if s = "@yearly" || s = "@annually" then some "0 0 1 1 *"
  else if s = "@monthly" then some "0 0 1 * *"
  else if s = "@weekly" then some "0 0 * * 0"
  else if s = "@daily" || s = "@midnight" then some "0 0 * * *"
  else if s = "@hourly" then some "0 * * * *"
  else none

/-- Modelled from the spec: parse a schedule string into a `CronExpr`:
a recognized shortcut expands first, then exactly five whitespace-separated
fields must parse within their ranges (day-of-week additionally reduced
modulo 7 so that `7` means Sunday).  Anything else — `@reboot` included —
is invalid. -/
def parseCron (s : String) : Option CronExpr :=
  let text := (expandShortcut (pyStrip s)).getD s
  match pySplit text with
  | [f1, f2, f3, f4, f5] =>
    match parseField 0 59 f1, parseField 0 23 f2, parseField 1 31 f3,
        parseField 1 12 f4, parseField 0 7 f5 with
    | some mi, some h, some d, some mo, some w =>
      some ⟨mi, h, d, mo, w.map (fun l => l.map (· % 7))⟩
    | _, _, _, _, _ => none
  | _ => none

/-- Modelled from the spec: does a field allow a value (`none` = `*`)? -/
def fieldMatch (f : Option (List Nat)) (v : Nat) : Bool :=
  match f with
  | none => true
  | some l => l.contains v

/-- Modelled from the spec: the standard cron day clause: when both
day-of-month and day-of-week are restricted, either may match; a literal `*`
on one side defers to the other. -/
def dayMatch (e : CronExpr) (t : Nat) : Bool :=
  match e.dom, e.dow with
  | none, none => true
  | some doms, none => doms.contains (dateOf t).2.2
  | none, some dows => dows.contains (dowOf t)
  | some doms, some dows => doms.contains (dateOf t).2.2 || dows.contains (dowOf t)

/-- Modelled from the spec: does the expression fire at instant `t`? -/
def cronMatch (e : CronExpr) (t : Nat) : Bool :=
  fieldMatch e.minute (t % 60) &&
  fieldMatch e.hour (t / 60 % 24) &&
  fieldMatch e.month (dateOf t).2.1 &&
  dayMatch e t

/-- Modelled from the spec: croniter gives up when no fire time exists within
a bounded search window; nine years of minutes covers every repeating
pattern (leap-day schedules included). -/
def cronSearchFuel : Nat := 4743360

/-- Modelled from the spec: the first matching instant at or after `u`,
scanning minute by minute within the fuel bound. -/
def scanNext (e : CronExpr) : Nat → Nat → Option Nat
  | 0, _ => none
  | fuel + 1, u => if cronMatch e u then some u else scanNext e fuel (u + 1)

/-- Modelled from the spec: croniter's `get_next`: the first fire time
strictly after `t`, or `none` (croniter raises `CroniterBadDateError`) when
the search window is exhausted. -/
def croniterGetNext (e : CronExpr) (t : Nat) : Option Nat :=
  scanNext e cronSearchFuel (t + 1)

/-- Modelled from the spec: `n` successive `get_next` calls, each starting
from the previous result; `none` as soon as one of them fails, like the
list comprehension in `compute_next_runs` aborts on the first exception. -/
def nextRunsAux (e : CronExpr) : Nat → Nat → Option (List Nat)
  | _, 0 => some []
  | t, n + 1 =>
    match croniterGetNext e t with
    | none => none
    | some r => (nextRunsAux e r n).map (r :: ·)

/-- `compute_next_runs` of `schedule.py`: build the croniter iterator and take
`count` next fire times; a bad expression (`CroniterBadCronError`) or an
exhausted search (`CroniterBadDateError`) yields `[]` through the
`try/except`. -/
def compute_next_runs (schedule : String) (start : Nat) (count : Nat) : List Nat :=
  match parseCron schedule with
  | none => []
  | some e => (nextRunsAux e start count).getD []

/-- `LocalCronReader._safe_next_runs`: `@reboot` short-circuits to `[]`, every
other schedule goes to `compute_next_runs` with `count = 3` (the logging-only
`context` argument is dropped). -/
def safe_next_runs (schedule : String) (now : Nat) : List Nat :=
  let s := pyStrip schedule
  if s = "@reboot" then [] else compute_next_runs s now 3

/-! ## String ordering (Python string and tuple comparison)

Python compares strings lexicographically by code point and tuples
lexicographically by component; `list.sort(key=...)` orders by the key
tuples.  `listLe` is the code-point order on strings and `keyLe` the
induced order on equal-length key tuples (represented as lists). -/

/-- Lexicographic code-point order (Python `<=`) on character lists. -/
def listLe : List Char → List Char → Bool
  | [], _ => true
  | _ :: _, [] => false
  | a :: s, b :: t => if a < b then true else if b < a then false else listLe s t

/-- Lexicographic order on key tuples (Python tuple comparison), the tuples
written as lists of strings. -/
def keyLe : List String → List String → Bool
  | [], _ => true
  | _ :: _, [] => false
  | a :: s, b :: t => if a = b then keyLe s t else listLe a.data b.data

/-! ## The job records (`src/app/models.py` and the reader's constructor calls)

`models.py` declares `CronJob` with the fields id, system, user, schedule,
command, next_runs and description — and no `source` field.  The reader
module nevertheless passes a `source` keyword at every construction site and
reads `job.source` in `_job_sort_key`.  The embedding therefore keeps two
record types: `CronJob` is the record as the reader module constructs it (all
eight keyword arguments), and `CronJobModel` is the pydantic model that
`models.py` actually declares. -/

/-- The job record as every construction site in `local_cron_reader.py`
builds it: the eight keyword arguments passed to the `CronJob(...)` calls. -/
structure CronJob where
  id : String
  system : String
  user : String
  schedule : String
  command : String
  next_runs : List Nat
  source : String
  description : Option String
deriving DecidableEq, Repr

/-- The `CronJob` pydantic model exactly as `models.py` declares it:
id, system, user, schedule, command, next_runs, description.  There is no
`source` field. -/
structure CronJobModel where
  id : String
  system : String
  user : String
  schedule : String
  command : String
  next_runs : List Nat
  description : Option String
deriving DecidableEq, Repr

/-- Pydantic construction of the `models.py` model from the keyword arguments
a construction site passes: with pydantic's default extra-field policy the
unknown `source` keyword is silently discarded and every declared field is
kept. -/
def mkCronJobModel (j : CronJob) : CronJobModel :=
  ⟨j.id, j.system, j.user, j.schedule, j.command, j.next_runs, j.description⟩

/-- Attribute lookup `job.source` on a `models.py` `CronJob` instance: the
class declares no such field (and the extra keyword was discarded at
construction), so Python raises `AttributeError`.  An exception is embedded
as the error case of `Except`. -/
def cronJobModel_source (_ : CronJobModel) : Except String String :=
  Except.error "AttributeError: source"

/-- `LocalCronReader._job_sort_key` evaluated on a `models.py` instance: it
reads `job.system`, `job.source`, `job.user`, `job.schedule`, `job.command`
and `job.id` in that order (`x or ""` is the identity on strings), so the
`job.source` lookup raises. -/
def job_sort_key_py (j : CronJobModel) : Except String (List String) := do
  let src ← cronJobModel_source j
  pure [j.system, src, j.user, j.schedule, j.command, j.id]

/-- `LocalCronReader._job_sort_key` on the record the reader constructs
(the sort key the reader means to use): the tuple
(system, source, user, schedule, command, id); `x or ""` is the identity on
strings. -/
def job_sort_key (j : CronJob) : List String :=
  [j.system, j.source, j.user, j.schedule, j.command, j.id]

/-- The order `list.sort(key=self._job_sort_key)` sorts by. -/
def jobLe (a b : CronJob) : Prop := keyLe (job_sort_key a) (job_sort_key b) = true

instance : DecidableRel jobLe := fun a b => by unfold jobLe; infer_instance

/-! ## The host state -/

/-- The outcome of `_run_command`: (returncode, stdout, stderr).
`_run_command` itself never raises: a missing binary is already folded into
`(127, "", "command not found: ...")`. -/
structure CommandResult where
  rc : Int
  out : String
  err : String

/-- One directory entry of `/etc/cron.d` as the reader observes it:
its name, whether it is a regular file, and the text `read_text` returns
(`none` models an `OSError`; decoding errors are already replaced). -/
structure CronDFile where
  name : String
  isFile : Bool
  content : Option String

/-- One directory entry of `/etc/cron.hourly` as the reader observes it. -/
structure HourlyEntry where
  name : String
  isFile : Bool
  executable : Bool

/-- Everything outside the process that one `get_cron_jobs()` call reads:
the invoking account name (`getpass.getuser()`), the two external query
outcomes, the relevant filesystem state, the two environment flags and the
clock.  A real directory listing never repeats a name, so the two listings
carry that invariant. -/
structure HostState where
  currentUser : String
  userCrontab : CommandResult
  rootCrontab : CommandResult
  etcCrontabIsFile : Bool
  etcCrontabContent : Option String
  cronDIsDir : Bool
  cronDFiles : List CronDFile
  cronHourlyIsDir : Bool
  cronHourlyEntries : List HourlyEntry
  includeRootCrontab : Bool
  includeRunParts : Bool
  now : Nat
  cronDNamesNodup : (cronDFiles.map CronDFile.name).Nodup
  hourlyNamesNodup : (cronHourlyEntries.map HourlyEntry.name).Nodup

/-- Python's `sorted(cron_d_dir.iterdir())`: the `/etc/cron.d` listing in
code-point order of the names (all paths share the directory part). -/
def sortedCronD (st : HostState) : List CronDFile :=
  List.insertionSort (fun a b => listLe a.name.data b.name.data = true) st.cronDFiles

/-! ## The source readers (`src/app/services/local_cron_reader.py`) -/

/-- `LocalCronReader._is_run_parts_for_dir`. -/
def is_run_parts_for_dir (command target_dir : String) : Bool :=
  let c := pyStrip command
  pyContainsStr c "run-parts" && pyContainsStr c target_dir

/-- The inner loop of `_infer_schedule_from_run_parts` over one
`/etc/cron.d` file: skip non-files and unreadable files (`continue`), parse
each line in the system dialect and return the first run-parts hit for
`target_dir` with its `file:lineno` provenance. -/
def inferCronDFileHit (target_dir : String) (file : CronDFile) : Option (String × String) :=
  if !file.isFile then none
  else match file.content with
    | none => none
    | some text =>
      (List.enumFrom 1 (splitlinesPy text)).findSome? (fun pr =>
        match parse_system_cron_line pr.2 with
        | none => none
        | some parsed =>
          if is_run_parts_for_dir parsed.command target_dir then
            some (parsed.schedule, "/etc/cron.d/" ++ file.name ++ ":" ++ pyStr pr.1)
          else none)

/-- The `/etc/crontab` loop of `_infer_schedule_from_run_parts`: an absent
file is skipped, an `OSError` leaves `lines = []`. -/
def inferEtcHit (st : HostState) (target_dir : String) : Option (String × String) :=
  if st.etcCrontabIsFile then
    (List.enumFrom 1 (match st.etcCrontabContent with
      | some text => splitlinesPy text
      | none => [])).findSome? (fun pr =>
      match parse_system_cron_line pr.2 with
      | none => none
      | some parsed =>
        if is_run_parts_for_dir parsed.command target_dir then
          some (parsed.schedule, "/etc/crontab:" ++ pyStr pr.1)
        else none)
  else none

/-- `LocalCronReader._infer_schedule_from_run_parts`: search the sorted
`/etc/cron.d` files and then `/etc/crontab`, line by line, for the first
system-dialect line whose command is a run-parts invocation of `target_dir`;
the fallback is `("0 * * * *", "default")`. -/
def infer_schedule_from_run_parts (st : HostState) (target_dir : String) : String × String :=
  let fromCronD : Option (String × String) :=
    if st.cronDIsDir then (sortedCronD st).findSome? (inferCronDFileHit target_dir)
    else none
  match fromCronD with
  | some r => r
  | none =>
    match inferEtcHit st target_dir with
    | some r => r
    | none => ("0 * * * *", "default")

/-- `LocalCronReader._get_current_user_crontab_jobs`: on any non-zero exit of
`crontab -l` every branch returns `[]` (the differences are logging only);
otherwise each stdout line that parses in the user dialect becomes a record.
Lines that fail to parse are skipped (`continue`), with or without a
warning. -/
def get_current_user_crontab_jobs (st : HostState) : List CronJob :=
  let username := st.currentUser
  if st.userCrontab.rc ≠ 0 then []
  else
    (List.enumFrom 1 (splitlinesPy st.userCrontab.out)).filterMap (fun pr =>
      (parse_user_cron_line pr.2).map (fun parsed =>
        { id := "user-crontab:" ++ username ++ ":" ++ pyStr pr.1
          system := "localhost"
          user := username
          schedule := parsed.schedule
          command := parsed.command
          next_runs := safe_next_runs parsed.schedule st.now
          source := "user-crontab"
          description := some "Quelle: user crontab (crontab -l)" }))

/-- `LocalCronReader._get_root_crontab_jobs`: same shape over
`sudo -n crontab -l`, with the fixed user `root`; the one-shot warning latch
only affects logging and is not part of the returned data. -/
def get_root_crontab_jobs (st : HostState) : List CronJob :=
  if st.rootCrontab.rc ≠ 0 then []
  else
    (List.enumFrom 1 (splitlinesPy st.rootCrontab.out)).filterMap (fun pr =>
      (parse_user_cron_line pr.2).map (fun parsed =>
        { id := "user-crontab:root:" ++ pyStr pr.1
          system := "localhost"
          user := "root"
          schedule := parsed.schedule
          command := parsed.command
          next_runs := safe_next_runs parsed.schedule st.now
          source := "root-crontab"
          description := some "Quelle: root user crontab (sudo -n crontab -l)" }))

/-- `LocalCronReader._read_cron_hourly_jobs`: every regular executable entry
of `/etc/cron.hourly` becomes one record whose schedule is inferred from the
run-parts sources; `str(entry)` is the full path. -/
def read_cron_hourly_jobs (st : HostState) : List CronJob :=
  if !st.cronHourlyIsDir then []
  else
    let inferred := infer_schedule_from_run_parts st "/etc/cron.hourly"
    (st.cronHourlyEntries.filter (fun entry => entry.isFile && entry.executable)).map
      (fun entry =>
        { id := "cron.hourly-" ++ entry.name
          system := "localhost"
          user := "root"
          schedule := inferred.1
          command := "/etc/cron.hourly/" ++ entry.name
          next_runs := safe_next_runs inferred.1 st.now
          source := "/etc/cron.hourly"
          description := some (if inferred.2 = "default"
            then "Quelle: /etc/cron.hourly (Schedule aktuell Annahme: stündlich)."
            else "Quelle: /etc/cron.hourly (Schedule abgeleitet aus run-parts: "
                  ++ inferred.2 ++ ").") })

/-- `LocalCronReader._read_etc_crontab_jobs`: each system-dialect line of
`/etc/crontab` becomes one record; a missing file or an `OSError` yields
`[]`. -/
def read_etc_crontab_jobs (st : HostState) : List CronJob :=
  if !st.etcCrontabIsFile then []
  else match st.etcCrontabContent with
    | none => []
    | some text =>
      (List.enumFrom 1 (splitlinesPy text)).filterMap (fun pr =>
        (parse_system_cron_line pr.2).map (fun parsed =>
          { id := "etc-crontab:" ++ pyStr pr.1
            system := "localhost"
            user := parsed.user
            schedule := parsed.schedule
            command := parsed.command
            next_runs := safe_next_runs parsed.schedule st.now
            source := "/etc/crontab"
            description := some "Quelle: /etc/crontab" }))

/-- The inner loop of `_read_cron_d_jobs` over one `/etc/cron.d` file:
non-files and unreadable files are skipped, each system-dialect line becomes
one record. -/
def readCronDFile (now : Nat) (file : CronDFile) : List CronJob :=
  if !file.isFile then []
  else match file.content with
    | none => []
    | some text =>
      (List.enumFrom 1 (splitlinesPy text)).filterMap (fun pr =>
        (parse_system_cron_line pr.2).map (fun parsed =>
          { id := "cron.d:" ++ file.name ++ ":" ++ pyStr pr.1
            system := "localhost"
            user := parsed.user
            schedule := parsed.schedule
            command := parsed.command
            next_runs := safe_next_runs parsed.schedule now
            source := "/etc/cron.d/" ++ file.name
            description := some ("Quelle: /etc/cron.d/" ++ file.name) }))

/-- `LocalCronReader._read_cron_d_jobs`: the files of `/etc/cron.d` in sorted
order. -/
def read_cron_d_jobs (st : HostState) : List CronJob :=
  if !st.cronDIsDir then []
  else (sortedCronD st).flatMap (readCronDFile st.now)

/-- `LocalCronReader._should_hide_run_parts_aggregator`: with
`CRONFLEET_INCLUDE_RUN_PARTS=1` nothing is hidden; otherwise a command is
hidden when it mentions `run-parts` and one of the four convention
directories. -/
def should_hide_run_parts_aggregator (st : HostState) (command : String) : Bool :=
  if st.includeRunParts then false
  else if !pyContainsStr command "run-parts" then false
  else ["/etc/cron.hourly", "/etc/cron.daily", "/etc/cron.weekly", "/etc/cron.monthly"].any
        (fun t => pyContainsStr command t)

/-- The two static example records of `get_cron_jobs` (the "Dummy-Daten"). -/
def dummy_jobs (st : HostState) : List CronJob :=
  [ { id := "local-root-system-update"
      system := "localhost"
      user := "root"
      schedule := "0 3 * * *"
      command := "/usr/bin/pacman -Syu --noconfirm"
      next_runs := safe_next_runs "0 3 * * *" st.now
      source := "dummy"
      description := some "Beispiel: nächtliches System-Update (Dummy-Daten)." },
    { id := "local-user-backup-home"
      system := "localhost"
      user := st.currentUser
      schedule := "30 2 * * 1-5"
      command := "/home/" ++ st.currentUser ++ "/bin/backup-home.sh"
      next_runs := safe_next_runs "30 2 * * 1-5" st.now
      source := "dummy"
      description := some "Beispiel: User-Backup des Home-Verzeichnisses (Dummy-Daten)." } ]

/-- The record list `get_cron_jobs` accumulates before the suppression filter
and the sort: dummies, user crontab, optional root crontab, `/etc/cron.hourly`,
`/etc/crontab`, `/etc/cron.d/*`. -/
def collect_jobs (st : HostState) : List CronJob :=
  dummy_jobs st
    ++ get_current_user_crontab_jobs st
    ++ (if st.includeRootCrontab then get_root_crontab_jobs st else [])
    ++ read_cron_hourly_jobs st
    ++ read_etc_crontab_jobs st
    ++ read_cron_d_jobs st

/-- `LocalCronReader.get_cron_jobs` with the sort key the reader means to use
(see `CronJob` above): collect, filter out run-parts aggregators, sort by
`job_sort_key`. -/
def get_cron_jobs (st : HostState) : List CronJob :=
  List.insertionSort jobLe
    ((collect_jobs st).filter (fun j => !should_hide_run_parts_aggregator st j.command))

/-- `LocalCronReader.get_cron_jobs` as the code actually executes against the
`models.py` model: the records are pydantic instances without the `source`
field, and `list.sort(key=self._job_sort_key)` computes the key of every
element first, so on a non-empty list the first key computation raises.  The
`Except.ok` branch of the match is only reachable for the empty list, which
is returned unchanged. -/
def get_cron_jobs_py (st : HostState) : Except String (List CronJobModel) :=
  let kept := (collect_jobs st).filter (fun j => !should_hide_run_parts_aggregator st j.command)
  let models := kept.map mkCronJobModel
  match models.mapM job_sort_key_py with
  | Except.error e => Except.error e
  | Except.ok _ => Except.ok models

/-! ## Claim-side definitions

These definitions restate spec sentences (for refinement-style claims) so
that a theorem can compare them with the embedded code; they are written
from the claims' words, not from the source. -/

/-- The none-conditions of claim C7 exactly as the claim states them: empty
or whitespace-only line, comment, an environment assignment whose FIRST
whitespace-delimited token has the form `IDENTIFIER=...` with a non-empty
alphanumeric/underscore identifier, a shortcut line with fewer than 2 tokens,
or a standard line with fewer than 6 tokens. -/
def claimC7NoneCondB (line : String) : Bool :=
  let raw := pyStrip line
  let parts := pySplit raw
  raw = "" || pyStartsWith raw "#" ||
    (match parts with
     | [] => true
     | p0 :: _ =>
       (p0.data.contains '=' &&
         (let key : String := ⟨p0.data.takeWhile (fun c => c ≠ '=')⟩
          !key.data.isEmpty && key.data.all pyIsIdentChar)) ||
       (pyStartsWith p0 "@" && parts.length < 2) ||
       (!pyStartsWith p0 "@" && parts.length < 6))

/-- Claim C7 as amended: the same characterization with the environment
clause replaced by the code's rule — the line contains `=` and the text
before its first `=`, stripped of surrounding whitespace, is a non-empty
alphanumeric/underscore identifier. -/
def claimedParseUser (line : String) : Option ParsedCronLine :=
  let raw := pyStrip line
  if raw = "" then none
  else if pyStartsWith raw "#" then none
  else if raw.data.contains '=' &&
      (let key := pyStrip ⟨raw.data.takeWhile (fun c => c ≠ '=')⟩
       !key.data.isEmpty && key.data.all pyIsIdentChar) then none
  else
    match pySplit raw with
    | [] => none
    | p0 :: rest =>
      if pyStartsWith p0 "@" then
        if (p0 :: rest).length < 2 then none
        else some ⟨p0, "", pyJoin " " rest⟩
      else if (p0 :: rest).length < 6 then none
      else some ⟨pyJoin " " ((p0 :: rest).take 5), "", pyJoin " " ((p0 :: rest).drop 5)⟩

/-- A schedule string is valid (deterministic, with fire times) for a start
instant and a count when the modelled croniter parses it and finds all
`count` next fire times. -/
def scheduleValid (s : String) (t n : Nat) : Prop :=
  ∃ e l, parseCron s = some e ∧ nextRunsAux e t n = some l

/-- A schedule string is invalid for a start instant and a count when the
modelled croniter rejects it outright (syntactically or semantically
invalid, or a shortcut with no fixed cadence such as `@reboot`), or parses
it but exhausts its search window (an impossible date). -/
def scheduleInvalid (s : String) (t n : Nat) : Prop :=
  parseCron s = none ∨ ∃ e, parseCron s = some e ∧ nextRunsAux e t n = none

/-- The spec's search list for schedule inference (claim C9): the
system-dialect-parseable lines of the sorted `/etc/cron.d` files, then of
`/etc/crontab`, that dispatch `target_dir`, each with its schedule and its
`file:lineno` provenance, in search order. -/
def lineCandidates (mk : Nat → String) (lines : List String) (target_dir : String) :
    List (String × String) :=
  (List.enumFrom 1 lines).filterMap (fun pr =>
    match parse_system_cron_line pr.2 with
    | none => none
    | some parsed =>
      if is_run_parts_for_dir parsed.command target_dir then
        some (parsed.schedule, mk pr.1)
      else none)

/-- The candidate lines one `/etc/cron.d` file contributes to the search
sequence of claim C9. -/
def cronDFileCandidates (target_dir : String) (file : CronDFile) : List (String × String) :=
  if !file.isFile then []
  else match file.content with
    | none => []
    | some text =>
      lineCandidates (fun n => "/etc/cron.d/" ++ file.name ++ ":" ++ pyStr n)
        (splitlinesPy text) target_dir

/-- The candidate lines `/etc/crontab` contributes to the search sequence of
claim C9. -/
def etcCandidates (st : HostState) (target_dir : String) : List (String × String) :=
  if st.etcCrontabIsFile then
    lineCandidates (fun n => "/etc/crontab:" ++ pyStr n)
      (match st.etcCrontabContent with
       | some text => splitlinesPy text
       | none => []) target_dir
  else []

/-- The full search sequence of claim C9 over the host state. -/
def inferSearchCandidates (st : HostState) (target_dir : String) : List (String × String) :=
  (if st.cronDIsDir then (sortedCronD st).flatMap (cronDFileCandidates target_dir)
   else []) ++ etcCandidates st target_dir

/-- The little-endian decimal value of a digit string (inverse of
`pyStrDigits`, for the injectivity proof of `pyStr`). -/
def digitsVal : List Char → Nat
  | [] => 0
  | c :: rest => (c.toNat - 48) + 10 * digitsVal rest

/-! ## Concrete host states for the witnesses and counterexamples -/

/-- A host where the invoking account is `root` and the privileged-account
crontab source is enabled: both external queries list the same one-line root
crontab. -/
def c4CollisionHost : HostState where
  currentUser := "root"
  userCrontab := ⟨0, "* * * * * /usr/local/bin/nightly-sync.sh\n", ""⟩
  rootCrontab := ⟨0, "* * * * * /usr/local/bin/nightly-sync.sh\n", ""⟩
  etcCrontabIsFile := false
  etcCrontabContent := none
  cronDIsDir := false
  cronDFiles := []
  cronHourlyIsDir := false
  cronHourlyEntries := []
  includeRootCrontab := true
  includeRunParts := false
  now := 1589
  cronDNamesNodup := by decide
  hourlyNamesNodup := by decide

/-- A host with every source populated, whose invoking account is not
`root`. -/
def c4WitnessHost : HostState where
  currentUser := "alice"
  userCrontab := ⟨0, "* * * * * /home/alice/bin/tick.sh\n", ""⟩
  rootCrontab := ⟨0, "* * * * * /usr/local/bin/nightly-sync.sh\n", ""⟩
  etcCrontabIsFile := true
  etcCrontabContent := some "* * * * * root /usr/bin/uptime-log\n"
  cronDIsDir := true
  cronDFiles := [⟨"0hourly", true, some "* * * * * root run-parts /etc/cron.hourly\n"⟩]
  cronHourlyIsDir := true
  cronHourlyEntries := [⟨"logrotate", true, true⟩]
  includeRootCrontab := true
  includeRunParts := false
  now := 1589
  cronDNamesNodup := by decide
  hourlyNamesNodup := by decide

/-! ## General helper lemmas -/

theorem head?_append_or (a b : List α) : (a ++ b).head? = a.head?.or b.head? := by
  cases a <;> rfl

theorem findSome?_head?_flatMap (G : α → List β) (l : List α) :
    l.findSome? (fun x => (G x).head?) = (l.flatMap G).head? := by
  induction l with
  | nil => rfl
  | cons x xs ih =>
    simp only [List.findSome?_cons, List.flatMap_cons, head?_append_or]
    cases h : (G x).head? with
    | none => simp [h, ih]
    | some y => simp [h]

theorem mapM_sortkey_error (j : CronJobModel) (l : List CronJobModel) :
    (j :: l).mapM job_sort_key_py = Except.error "AttributeError: source" := rfl

theorem should_hide_dummy1 (st : HostState) :
    should_hide_run_parts_aggregator st "/usr/bin/pacman -Syu --noconfirm" = false := by
  unfold should_hide_run_parts_aggregator
  split
  · rfl
  · decide

/-! ## Ordering lemmas for the sort key -/

theorem listLe_total : ∀ p q : List Char, listLe p q = true ∨ listLe q p = true := by
  intro p
  induction p with
  | nil => intro q; left; rfl
  | cons a s ih =>
    intro q
    cases q with
    | nil => right; rfl
    | cons b t =>
      unfold listLe
      rcases lt_trichotomy a b with h | h | h
      · left; simp [h]
      · subst h
        simp only [lt_irrefl, if_false]
        exact ih t
      · right; simp [h]

theorem listLe_antisymm : ∀ p q : List Char, listLe p q = true → listLe q p = true → p = q := by
  intro p
  induction p with
  | nil =>
    intro q h1 h2
    cases q with
    | nil => rfl
    | cons b t => exact absurd h2 (by simp [listLe])
  | cons a s ih =>
    intro q h1 h2
    cases q with
    | nil => exact absurd h1 (by simp [listLe])
    | cons b t =>
      unfold listLe at h1 h2
      rcases lt_trichotomy a b with h | h | h
      · rw [if_neg (lt_asymm h), if_pos h] at h2
        exact absurd h2 (by simp)
      · subst h
        simp only [lt_irrefl, if_false] at h1 h2
        rw [ih t h1 h2]
      · rw [if_neg (lt_asymm h), if_pos h] at h1
        exact absurd h1 (by simp)

theorem listLe_trans :
    ∀ p q r : List Char, listLe p q = true → listLe q r = true → listLe p r = true := by
  intro p
  induction p with
  | nil => intro q r _ _; rfl
  | cons a s ih =>
    intro q r h1 h2
    cases q with
    | nil => exact absurd h1 (by simp [listLe])
    | cons b t =>
      cases r with
      | nil => exact absurd h2 (by simp [listLe])
      | cons c u =>
        unfold listLe at h1 h2 ⊢
        rcases lt_trichotomy a b with hab | hab | hab
        · rcases lt_trichotomy b c with hbc | hbc | hbc
          · simp [lt_trans hab hbc]
          · subst hbc; simp [hab]
          · rw [if_neg (lt_asymm hbc), if_pos hbc] at h2
            exact absurd h2 (by simp)
        · subst hab
          simp only [lt_irrefl, if_false] at h1
          rcases lt_trichotomy a c with hac | hac | hac
          · simp [hac]
          · subst hac
            simp only [lt_irrefl, if_false] at h2 ⊢
            exact ih t u h1 h2
          · rw [if_neg (lt_asymm hac), if_pos hac] at h2
            exact absurd h2 (by simp)
        · rw [if_neg (lt_asymm hab), if_pos hab] at h1
          exact absurd h1 (by simp)

theorem strings_eq_of_data_eq {a b : String} (h : a.data = b.data) : a = b := String.ext h

theorem keyLe_total : ∀ p q : List String, keyLe p q = true ∨ keyLe q p = true := by
  intro p
  induction p with
  | nil => intro q; left; rfl
  | cons a s ih =>
    intro q
    cases q with
    | nil => right; rfl
    | cons b t =>
      unfold keyLe
      by_cases hab : a = b
      · subst hab
        simp only [if_pos rfl]
        exact ih t
      · rw [if_neg hab, if_neg (Ne.symm hab)]
        exact listLe_total a.data b.data

theorem keyLe_trans :
    ∀ p q r : List String, keyLe p q = true → keyLe q r = true → keyLe p r = true := by
  intro p
  induction p with
  | nil => intro q r _ _; rfl
  | cons a s ih =>
    intro q r h1 h2
    cases q with
    | nil => exact absurd h1 (by simp [keyLe])
    | cons b t =>
      cases r with
      | nil => exact absurd h2 (by simp [keyLe])
      | cons c u =>
        unfold keyLe at h1 h2 ⊢
        by_cases hab : a = b
        · subst hab
          rw [if_pos rfl] at h1
          by_cases hac : a = c
          · subst hac
            rw [if_pos rfl] at h2 ⊢
            exact ih t u h1 h2
          · rw [if_neg hac] at h2 ⊢
            exact h2
        · rw [if_neg hab] at h1
          by_cases hbc : b = c
          · subst hbc
            rw [if_neg hab]
            exact h1
          · rw [if_neg hbc] at h2
            by_cases hac : a = c
            · subst hac
              have hd : a.data = b.data := listLe_antisymm a.data b.data h1 h2
              exact absurd (strings_eq_of_data_eq hd) hab
            · rw [if_neg hac]
              exact listLe_trans a.data b.data c.data h1 h2

/-! ## Decimal rendering: digits and injectivity -/

theorem digitChar_val : ∀ d : Nat, d < 10 → (Char.ofNat (48 + d)).toNat = 48 + d := by decide

theorem digitChar_isDigit : ∀ d : Nat, d < 10 → (Char.ofNat (48 + d)).isDigit = true := by decide

theorem pyStrDigits_val :
    ∀ fuel n, n < fuel → digitsVal (pyStrDigits fuel n) = n := by
  intro fuel
  induction fuel with
  | zero => intro n h; omega
  | succ f ih =>
    intro n h
    unfold pyStrDigits
    split
    · next h10 =>
      unfold digitsVal digitsVal
      rw [digitChar_val n h10]
      omega
    · next h10 =>
      unfold digitsVal
      have hrec : n / 10 < f := by
        have h1 : n / 10 < n := Nat.div_lt_self (by omega) (by omega)
        omega
      rw [ih (n / 10) hrec, digitChar_val (n % 10) (Nat.mod_lt n (by omega))]
      omega

theorem pyStrDigits_isDigit :
    ∀ fuel n c, c ∈ pyStrDigits fuel n → c.isDigit = true := by
  intro fuel
  induction fuel with
  | zero => intro n c h; cases h
  | succ f ih =>
    intro n c h
    unfold pyStrDigits at h
    split at h
    · next h10 =>
      rcases List.mem_singleton.1 h with rfl
      exact digitChar_isDigit n h10
    · next h10 =>
      rcases List.mem_cons.1 h with rfl | h2
      · exact digitChar_isDigit (n % 10) (Nat.mod_lt n (by omega))
      · exact ih (n / 10) c h2

theorem pyStr_isDigit (n : Nat) : ∀ c ∈ (pyStr n).data, c.isDigit = true := by
  intro c hc
  exact pyStrDigits_isDigit (n + 1) n c (List.mem_reverse.1 hc)

theorem colon_not_mem_pyStr (n : Nat) : ':' ∉ (pyStr n).data := by
  intro h
  have := pyStr_isDigit n ':' h
  simp [Char.isDigit] at this

theorem pyStr_data_inj : ∀ m n : Nat, (pyStr m).data = (pyStr n).data → m = n := by
  intro m n h
  have h2 : pyStrDigits (m + 1) m = pyStrDigits (n + 1) n := List.reverse_injective h
  have := pyStrDigits_val (m + 1) m (by omega)
  rw [h2, pyStrDigits_val (n + 1) n (by omega)] at this
  omega

/-! ## Identifier-shape lemmas for the uniqueness claim -/

theorem colon_split :
    ∀ (x y a b : List Char), ':' ∉ a → ':' ∉ b →
      x ++ ':' :: a = y ++ ':' :: b → x = y ∧ a = b := by
  intro x
  induction x with
  | nil =>
    intro y a b ha hb h
    cases y with
    | nil =>
      simp only [List.nil_append] at h
      injection h with h1 h2
      exact ⟨rfl, h2⟩
    | cons d ys =>
      simp only [List.nil_append, List.cons_append] at h
      obtain ⟨rfl, h2⟩ := List.cons.inj h
      exact absurd (h2 ▸ List.mem_append_right ys (List.mem_cons_self ':' b)) ha
  | cons d xs ih =>
    intro y a b ha hb h
    cases y with
    | nil =>
      simp only [List.nil_append, List.cons_append] at h
      obtain ⟨rfl, h2⟩ := List.cons.inj h
      exact absurd (h2.symm ▸ List.mem_append_right xs (List.mem_cons_self ':' a)) hb
    | cons e ys =>
      simp only [List.cons_append] at h
      obtain ⟨rfl, h2⟩ := List.cons.inj h
      obtain ⟨h3, h4⟩ := ih ys a b ha hb h2
      exact ⟨by rw [h3], h4⟩

theorem ne_append_of_ne_at (d q r : List Char) (i : Nat) (hq : i < q.length)
    (hne : d[i]? ≠ q[i]?) : d ≠ q ++ r := by
  intro h
  apply hne
  rw [h]
  exact List.getElem?_append_left hq

theorem append_ne_append_of_ne_at (p r q s : List Char) (i : Nat)
    (hp : i < p.length) (hq : i < q.length) (hne : p[i]? ≠ q[i]?) : p ++ r ≠ q ++ s := by
  apply ne_append_of_ne_at _ _ _ i hq
  rw [List.getElem?_append_left hp]
  exact hne

theorem str_append_left_cancel {p a b : String} (h : p ++ a = p ++ b) : a = b := by
  have hd := congrArg String.data h
  simp only [String.data_append] at hd
  exact String.ext (List.append_cancel_left hd)

theorem strPre_inj (P : String) : Function.Injective (fun s => P ++ s) := by
  intro a b h
  exact str_append_left_cancel h

theorem tag_pyStr_inj (P : String) : Function.Injective (fun n => P ++ pyStr n) := by
  intro m n h
  exact pyStr_data_inj m n (congrArg String.data (str_append_left_cancel h))


theorem map_id_filterMap_enum (g : Nat × String → Option CronJob) (f : Nat → String)
    (hg : ∀ pr j, g pr = some j → j.id = f pr.1) :
    ∀ L : List (Nat × String),
      (L.filterMap g).map CronJob.id
        = ((L.filter (fun x => (g x).isSome)).map Prod.fst).map f := by
  intro L
  induction L with
  | nil => rfl
  | cons x xs ih =>
    cases hx : g x with
    | none => simp [List.filterMap_cons, List.filter_cons, hx, ih]
    | some j => simp [List.filterMap_cons, List.filter_cons, hx, ih, hg x j hx]

theorem nodup_ids_filterMap_enum (g : Nat × String → Option CronJob) (f : Nat → String)
    (hg : ∀ pr j, g pr = some j → j.id = f pr.1) (hf : Function.Injective f)
    (k : Nat) (lines : List String) :
    (((List.enumFrom k lines).filterMap g).map CronJob.id).Nodup := by
  rw [map_id_filterMap_enum g f hg]
  apply List.Nodup.map hf
  apply List.Nodup.sublist ((List.filter_sublist _).map Prod.fst)
  rw [List.enumFrom_map_fst]
  exact List.nodup_range' _ _

theorem nodup_ids_dummy (st : HostState) :
    ((dummy_jobs st).map CronJob.id).Nodup := by
  unfold dummy_jobs
  simp only [List.map_cons, List.map_nil]
  decide

theorem nodup_ids_user (st : HostState) :
    ((get_current_user_crontab_jobs st).map CronJob.id).Nodup := by
  unfold get_current_user_crontab_jobs
  split
  · simp
  · exact nodup_ids_filterMap_enum _
      (fun n => "user-crontab:" ++ st.currentUser ++ ":" ++ pyStr n)
      (fun pr j hj => by
        obtain ⟨p, hp, rfl⟩ := Option.map_eq_some'.1 hj
        rfl)
      (tag_pyStr_inj _) 1 _

theorem nodup_ids_root (st : HostState) :
    ((get_root_crontab_jobs st).map CronJob.id).Nodup := by
  unfold get_root_crontab_jobs
  split
  · simp
  · exact nodup_ids_filterMap_enum _
      (fun n => "user-crontab:root:" ++ pyStr n)
      (fun pr j hj => by
        obtain ⟨p, hp, rfl⟩ := Option.map_eq_some'.1 hj
        rfl)
      (tag_pyStr_inj _) 1 _

theorem nodup_ids_etc (st : HostState) :
    ((read_etc_crontab_jobs st).map CronJob.id).Nodup := by
  unfold read_etc_crontab_jobs
  split
  · simp
  · cases st.etcCrontabContent with
    | none => simp
    | some text =>
      exact nodup_ids_filterMap_enum _
        (fun n => "etc-crontab:" ++ pyStr n)
        (fun pr j hj => by
          obtain ⟨p, hp, rfl⟩ := Option.map_eq_some'.1 hj
          rfl)
        (tag_pyStr_inj _) 1 _

theorem nodup_ids_hourly (st : HostState) :
    ((read_cron_hourly_jobs st).map CronJob.id).Nodup := by
  unfold read_cron_hourly_jobs
  split
  · simp
  · rw [List.map_map]
    show (((st.cronHourlyEntries.filter
        (fun entry => entry.isFile && entry.executable))).map
          (fun e => "cron.hourly-" ++ e.name)).Nodup
    rw [show (fun e : HourlyEntry => "cron.hourly-" ++ e.name)
          = (fun s => "cron.hourly-" ++ s) ∘ HourlyEntry.name from rfl,
        ← List.map_map]
    apply List.Nodup.map (strPre_inj _)
    exact List.Nodup.sublist ((List.filter_sublist _).map _) st.hourlyNamesNodup

theorem nodup_ids_cron_d_file (now : Nat) (file : CronDFile) :
    ((readCronDFile now file).map CronJob.id).Nodup := by
  unfold readCronDFile
  split
  · simp
  · cases file.content with
    | none => simp
    | some text =>
      exact nodup_ids_filterMap_enum _
        (fun n => "cron.d:" ++ file.name ++ ":" ++ pyStr n)
        (fun pr j hj => by
          obtain ⟨p, hp, rfl⟩ := Option.map_eq_some'.1 hj
          rfl)
        (tag_pyStr_inj _) 1 _

theorem mem_readCronDFile_id (now : Nat) (file : CronDFile) (j : CronJob)
    (hj : j ∈ readCronDFile now file) :
    ∃ n, j.id = "cron.d:" ++ file.name ++ ":" ++ pyStr n := by
  unfold readCronDFile at hj
  split at hj
  · cases hj
  · cases hc : file.content with
    | none => rw [hc] at hj; cases hj
    | some text =>
      rw [hc] at hj
      obtain ⟨pr, hpr, hj2⟩ := List.mem_filterMap.1 hj
      obtain ⟨p, hp, rfl⟩ := Option.map_eq_some'.1 hj2
      exact ⟨pr.1, rfl⟩

theorem mem_dummy_jobs_id (st : HostState) (j : CronJob) (hj : j ∈ dummy_jobs st) :
    j.id = "local-root-system-update" ∨ j.id = "local-user-backup-home" := by
  unfold dummy_jobs at hj
  rcases List.mem_cons.1 hj with rfl | hj2
  · left; rfl
  · rcases List.mem_cons.1 hj2 with rfl | hj3
    · right; rfl
    · cases hj3

theorem mem_user_jobs_id (st : HostState) (j : CronJob)
    (hj : j ∈ get_current_user_crontab_jobs st) :
    ∃ n, j.id = "user-crontab:" ++ st.currentUser ++ ":" ++ pyStr n := by
  unfold get_current_user_crontab_jobs at hj
  split at hj
  · cases hj
  · obtain ⟨pr, hpr, hj2⟩ := List.mem_filterMap.1 hj
    obtain ⟨p, hp, rfl⟩ := Option.map_eq_some'.1 hj2
    exact ⟨pr.1, rfl⟩

theorem mem_root_jobs_id (st : HostState) (j : CronJob)
    (hj : j ∈ get_root_crontab_jobs st) :
    ∃ n, j.id = "user-crontab:root:" ++ pyStr n := by
  unfold get_root_crontab_jobs at hj
  split at hj
  · cases hj
  · obtain ⟨pr, hpr, hj2⟩ := List.mem_filterMap.1 hj
    obtain ⟨p, hp, rfl⟩ := Option.map_eq_some'.1 hj2
    exact ⟨pr.1, rfl⟩

theorem mem_hourly_jobs_id (st : HostState) (j : CronJob)
    (hj : j ∈ read_cron_hourly_jobs st) :
    ∃ nm, j.id = "cron.hourly-" ++ nm := by
  unfold read_cron_hourly_jobs at hj
  split at hj
  · cases hj
  · obtain ⟨e, he, rfl⟩ := List.mem_map.1 hj
    exact ⟨e.name, rfl⟩

theorem mem_etc_jobs_id (st : HostState) (j : CronJob)
    (hj : j ∈ read_etc_crontab_jobs st) :
    ∃ n, j.id = "etc-crontab:" ++ pyStr n := by
  unfold read_etc_crontab_jobs at hj
  split at hj
  · cases hj
  · cases hc : st.etcCrontabContent with
    | none => rw [hc] at hj; cases hj
    | some text =>
      rw [hc] at hj
      obtain ⟨pr, hpr, hj2⟩ := List.mem_filterMap.1 hj
      obtain ⟨p, hp, rfl⟩ := Option.map_eq_some'.1 hj2
      exact ⟨pr.1, rfl⟩

theorem mem_cron_d_jobs_id (st : HostState) (j : CronJob)
    (hj : j ∈ read_cron_d_jobs st) :
    ∃ nm n, j.id = "cron.d:" ++ nm ++ ":" ++ pyStr n := by
  unfold read_cron_d_jobs at hj
  split at hj
  · cases hj
  · obtain ⟨file, hfile, hjf⟩ := List.mem_flatMap.1 hj
    obtain ⟨n, hn⟩ := mem_readCronDFile_id st.now file j hjf
    exact ⟨file.name, n, hn⟩

theorem str_append_assoc (a b c : String) : a ++ b ++ c = a ++ (b ++ c) := by
  apply String.ext
  simp [String.data_append, List.append_assoc]

theorem tagged_ne (P Q x y : String) (i : Nat)
    (hp : i < P.data.length) (hq : i < Q.data.length) (hne : P.data[i]? ≠ Q.data[i]?) :
    P ++ x ≠ Q ++ y := by
  intro h
  have hd := congrArg String.data h
  simp only [String.data_append] at hd
  exact append_ne_append_of_ne_at _ _ _ _ i hp hq hne hd

theorem lit_ne_tagged (d Q y : String) (i : Nat)
    (hq : i < Q.data.length) (hne : d.data[i]? ≠ Q.data[i]?) : d ≠ Q ++ y := by
  intro h
  have hd := congrArg String.data h
  simp only [String.data_append] at hd
  exact ne_append_of_ne_at _ _ _ i hq hne hd

theorem idne_user_root (u : String) (hu : u ≠ "root") (m n : Nat) :
    "user-crontab:" ++ u ++ ":" ++ pyStr m ≠ "user-crontab:root:" ++ pyStr n := by
  intro h
  apply hu
  have hd := congrArg String.data h
  simp only [String.data_append, List.append_assoc] at hd
  rw [show (['u', 's', 'e', 'r', '-', 'c', 'r', 'o', 'n', 't', 'a', 'b', ':', 'r', 'o', 'o',
        't', ':'] : List Char)
        = ['u', 's', 'e', 'r', '-', 'c', 'r', 'o', 'n', 't', 'a', 'b', ':']
          ++ (['r', 'o', 'o', 't'] ++ [':']) from rfl, List.append_assoc] at hd
  have hc := List.append_cancel_left hd
  simp only [List.singleton_append] at hc
  obtain ⟨h1, _⟩ := colon_split u.data ['r', 'o', 'o', 't'] _ _
    (colon_not_mem_pyStr m) (colon_not_mem_pyStr n) hc
  exact String.ext h1

theorem idne_cron_d_files (n1 n2 : String) (hne : n1 ≠ n2) (a b : Nat) :
    "cron.d:" ++ n1 ++ ":" ++ pyStr a ≠ "cron.d:" ++ n2 ++ ":" ++ pyStr b := by
  intro h
  apply hne
  have hd := congrArg String.data h
  simp only [String.data_append, List.append_assoc] at hd
  have hc := List.append_cancel_left hd
  simp only [List.singleton_append] at hc
  obtain ⟨h1, _⟩ := colon_split n1.data n2.data _ _
    (colon_not_mem_pyStr a) (colon_not_mem_pyStr b) hc
  exact String.ext h1

theorem disjoint_ids {A B : List CronJob} (PA PB : String → Prop)
    (hA : ∀ j ∈ A, PA j.id) (hB : ∀ j ∈ B, PB j.id)
    (hAB : ∀ s, PA s → PB s → False) :
    (A.map CronJob.id).Disjoint (B.map CronJob.id) := by
  intro a haA haB
  obtain ⟨j1, hj1, rfl⟩ := List.mem_map.1 haA
  obtain ⟨j2, hj2, he⟩ := List.mem_map.1 haB
  exact hAB _ (hA _ hj1) (he ▸ hB _ hj2)

theorem disj_dummy_user (st : HostState) :
    ((dummy_jobs st).map CronJob.id).Disjoint
      ((get_current_user_crontab_jobs st).map CronJob.id) := by
  apply disjoint_ids (fun s => s = "local-root-system-update" ∨ s = "local-user-backup-home")
      (fun s => ∃ n, s = "user-crontab:" ++ st.currentUser ++ ":" ++ pyStr n)
      (mem_dummy_jobs_id st) (mem_user_jobs_id st)
  rintro s (rfl | rfl) ⟨n, hn⟩ <;>
    (rw [str_append_assoc, str_append_assoc] at hn;
     exact absurd hn (lit_ne_tagged _ _ _ 0 (by decide) (by decide)))

theorem disj_dummy_root (st : HostState) :
    ((dummy_jobs st).map CronJob.id).Disjoint
      ((get_root_crontab_jobs st).map CronJob.id) := by
  apply disjoint_ids (fun s => s = "local-root-system-update" ∨ s = "local-user-backup-home")
      (fun s => ∃ n, s = "user-crontab:root:" ++ pyStr n)
      (mem_dummy_jobs_id st) (mem_root_jobs_id st)
  rintro s (rfl | rfl) ⟨n, hn⟩ <;>
    exact absurd hn (lit_ne_tagged _ _ _ 0 (by decide) (by decide))

theorem disj_dummy_hourly (st : HostState) :
    ((dummy_jobs st).map CronJob.id).Disjoint
      ((read_cron_hourly_jobs st).map CronJob.id) := by
  apply disjoint_ids (fun s => s = "local-root-system-update" ∨ s = "local-user-backup-home")
      (fun s => ∃ nm, s = "cron.hourly-" ++ nm)
      (mem_dummy_jobs_id st) (mem_hourly_jobs_id st)
  rintro s (rfl | rfl) ⟨nm, hn⟩ <;>
    exact absurd hn (lit_ne_tagged _ _ _ 0 (by decide) (by decide))

theorem disj_dummy_etc (st : HostState) :
    ((dummy_jobs st).map CronJob.id).Disjoint
      ((read_etc_crontab_jobs st).map CronJob.id) := by
  apply disjoint_ids (fun s => s = "local-root-system-update" ∨ s = "local-user-backup-home")
      (fun s => ∃ n, s = "etc-crontab:" ++ pyStr n)
      (mem_dummy_jobs_id st) (mem_etc_jobs_id st)
  rintro s (rfl | rfl) ⟨n, hn⟩ <;>
    exact absurd hn (lit_ne_tagged _ _ _ 0 (by decide) (by decide))

theorem disj_dummy_cron_d (st : HostState) :
    ((dummy_jobs st).map CronJob.id).Disjoint
      ((read_cron_d_jobs st).map CronJob.id) := by
  apply disjoint_ids (fun s => s = "local-root-system-update" ∨ s = "local-user-backup-home")
      (fun s => ∃ nm n, s = "cron.d:" ++ nm ++ ":" ++ pyStr n)
      (mem_dummy_jobs_id st) (mem_cron_d_jobs_id st)
  rintro s (rfl | rfl) ⟨nm, n, hn⟩ <;>
    (rw [str_append_assoc, str_append_assoc] at hn;
     exact absurd hn (lit_ne_tagged _ _ _ 0 (by decide) (by decide)))

theorem disj_user_root (st : HostState) (hu : st.currentUser ≠ "root") :
    ((get_current_user_crontab_jobs st).map CronJob.id).Disjoint
      ((get_root_crontab_jobs st).map CronJob.id) := by
  apply disjoint_ids (fun s => ∃ n, s = "user-crontab:" ++ st.currentUser ++ ":" ++ pyStr n)
      (fun s => ∃ n, s = "user-crontab:root:" ++ pyStr n)
      (mem_user_jobs_id st) (mem_root_jobs_id st)
  rintro s ⟨m, rfl⟩ ⟨n, hn⟩
  exact absurd hn (idne_user_root st.currentUser hu m n)

theorem disj_user_hourly (st : HostState) :
    ((get_current_user_crontab_jobs st).map CronJob.id).Disjoint
      ((read_cron_hourly_jobs st).map CronJob.id) := by
  apply disjoint_ids (fun s => ∃ n, s = "user-crontab:" ++ st.currentUser ++ ":" ++ pyStr n)
      (fun s => ∃ nm, s = "cron.hourly-" ++ nm)
      (mem_user_jobs_id st) (mem_hourly_jobs_id st)
  rintro s ⟨m, rfl⟩ ⟨nm, hn⟩
  rw [str_append_assoc, str_append_assoc] at hn
  exact absurd hn (tagged_ne _ _ _ _ 0 (by decide) (by decide) (by decide))

theorem disj_user_etc (st : HostState) :
    ((get_current_user_crontab_jobs st).map CronJob.id).Disjoint
      ((read_etc_crontab_jobs st).map CronJob.id) := by
  apply disjoint_ids (fun s => ∃ n, s = "user-crontab:" ++ st.currentUser ++ ":" ++ pyStr n)
      (fun s => ∃ n, s = "etc-crontab:" ++ pyStr n)
      (mem_user_jobs_id st) (mem_etc_jobs_id st)
  rintro s ⟨m, rfl⟩ ⟨n, hn⟩
  rw [str_append_assoc, str_append_assoc] at hn
  exact absurd hn (tagged_ne _ _ _ _ 0 (by decide) (by decide) (by decide))

theorem disj_user_cron_d (st : HostState) :
    ((get_current_user_crontab_jobs st).map CronJob.id).Disjoint
      ((read_cron_d_jobs st).map CronJob.id) := by
  apply disjoint_ids (fun s => ∃ n, s = "user-crontab:" ++ st.currentUser ++ ":" ++ pyStr n)
      (fun s => ∃ nm n, s = "cron.d:" ++ nm ++ ":" ++ pyStr n)
      (mem_user_jobs_id st) (mem_cron_d_jobs_id st)
  rintro s ⟨m, rfl⟩ ⟨nm, n, hn⟩
  rw [str_append_assoc, str_append_assoc] at hn
  rw [str_append_assoc, str_append_assoc] at hn
  exact absurd hn (tagged_ne _ _ _ _ 0 (by decide) (by decide) (by decide))

theorem disj_root_hourly (st : HostState) :
    ((get_root_crontab_jobs st).map CronJob.id).Disjoint
      ((read_cron_hourly_jobs st).map CronJob.id) := by
  apply disjoint_ids (fun s => ∃ n, s = "user-crontab:root:" ++ pyStr n)
      (fun s => ∃ nm, s = "cron.hourly-" ++ nm)
      (mem_root_jobs_id st) (mem_hourly_jobs_id st)
  rintro s ⟨m, rfl⟩ ⟨nm, hn⟩
  exact absurd hn (tagged_ne _ _ _ _ 0 (by decide) (by decide) (by decide))

theorem disj_root_etc (st : HostState) :
    ((get_root_crontab_jobs st).map CronJob.id).Disjoint
      ((read_etc_crontab_jobs st).map CronJob.id) := by
  apply disjoint_ids (fun s => ∃ n, s = "user-crontab:root:" ++ pyStr n)
      (fun s => ∃ n, s = "etc-crontab:" ++ pyStr n)
      (mem_root_jobs_id st) (mem_etc_jobs_id st)
  rintro s ⟨m, rfl⟩ ⟨n, hn⟩
  exact absurd hn (tagged_ne _ _ _ _ 0 (by decide) (by decide) (by decide))

theorem disj_root_cron_d (st : HostState) :
    ((get_root_crontab_jobs st).map CronJob.id).Disjoint
      ((read_cron_d_jobs st).map CronJob.id) := by
  apply disjoint_ids (fun s => ∃ n, s = "user-crontab:root:" ++ pyStr n)
      (fun s => ∃ nm n, s = "cron.d:" ++ nm ++ ":" ++ pyStr n)
      (mem_root_jobs_id st) (mem_cron_d_jobs_id st)
  rintro s ⟨m, rfl⟩ ⟨nm, n, hn⟩
  rw [str_append_assoc, str_append_assoc] at hn
  exact absurd hn (tagged_ne _ _ _ _ 0 (by decide) (by decide) (by decide))

theorem disj_hourly_etc (st : HostState) :
    ((read_cron_hourly_jobs st).map CronJob.id).Disjoint
      ((read_etc_crontab_jobs st).map CronJob.id) := by
  apply disjoint_ids (fun s => ∃ nm, s = "cron.hourly-" ++ nm)
      (fun s => ∃ n, s = "etc-crontab:" ++ pyStr n)
      (mem_hourly_jobs_id st) (mem_etc_jobs_id st)
  rintro s ⟨nm, rfl⟩ ⟨n, hn⟩
  exact absurd hn (tagged_ne _ _ _ _ 0 (by decide) (by decide) (by decide))

theorem disj_hourly_cron_d (st : HostState) :
    ((read_cron_hourly_jobs st).map CronJob.id).Disjoint
      ((read_cron_d_jobs st).map CronJob.id) := by
  apply disjoint_ids (fun s => ∃ nm, s = "cron.hourly-" ++ nm)
      (fun s => ∃ nm n, s = "cron.d:" ++ nm ++ ":" ++ pyStr n)
      (mem_hourly_jobs_id st) (mem_cron_d_jobs_id st)
  rintro s ⟨nm, rfl⟩ ⟨nm2, n, hn⟩
  rw [str_append_assoc, str_append_assoc] at hn
  exact absurd hn (tagged_ne _ _ _ _ 5 (by decide) (by decide) (by decide))

theorem disj_etc_cron_d (st : HostState) :
    ((read_etc_crontab_jobs st).map CronJob.id).Disjoint
      ((read_cron_d_jobs st).map CronJob.id) := by
  apply disjoint_ids (fun s => ∃ n, s = "etc-crontab:" ++ pyStr n)
      (fun s => ∃ nm n, s = "cron.d:" ++ nm ++ ":" ++ pyStr n)
      (mem_etc_jobs_id st) (mem_cron_d_jobs_id st)
  rintro s ⟨m, rfl⟩ ⟨nm, n, hn⟩
  rw [str_append_assoc, str_append_assoc] at hn
  exact absurd hn (tagged_ne _ _ _ _ 0 (by decide) (by decide) (by decide))

theorem nodup_ids_cron_d (st : HostState) :
    ((read_cron_d_jobs st).map CronJob.id).Nodup := by
  unfold read_cron_d_jobs
  split
  · simp
  · rw [List.map_flatMap, List.nodup_flatMap]
    constructor
    · intro file hfile
      exact nodup_ids_cron_d_file st.now file
    · have hperm : List.Perm ((sortedCronD st).map CronDFile.name)
          (st.cronDFiles.map CronDFile.name) :=
        (List.perm_insertionSort _ st.cronDFiles).map _
      have hnames : ((sortedCronD st).map CronDFile.name).Nodup :=
        (hperm.nodup_iff).2 st.cronDNamesNodup
      have hpair : (sortedCronD st).Pairwise (fun a b => a.name ≠ b.name) :=
        List.pairwise_map.1 hnames
      apply hpair.imp
      intro a b hne
      intro s hsa hsb
      obtain ⟨j1, hj1, rfl⟩ := List.mem_map.1 hsa
      obtain ⟨j2, hj2, he⟩ := List.mem_map.1 hsb
      obtain ⟨n1, hn1⟩ := mem_readCronDFile_id st.now a j1 hj1
      obtain ⟨n2, hn2⟩ := mem_readCronDFile_id st.now b j2 hj2
      have heq : "cron.d:" ++ a.name ++ ":" ++ pyStr n1
          = "cron.d:" ++ b.name ++ ":" ++ pyStr n2 := by
        rw [← hn1, ← hn2, he]
      exact absurd heq (idne_cron_d_files a.name b.name hne n1 n2)

theorem nodup_ids_collect (st : HostState)
    (h : ¬(st.currentUser = "root" ∧ st.includeRootCrontab = true)) :
    ((collect_jobs st).map CronJob.id).Nodup := by
  unfold collect_jobs
  cases hR : st.includeRootCrontab
  · simp only [hR, Bool.false_eq_true, if_false, List.append_nil,
      List.map_append, List.nodup_append, List.disjoint_append_right,
      List.disjoint_append_left]
    exact ⟨⟨⟨⟨nodup_ids_dummy st, nodup_ids_user st, disj_dummy_user st⟩,
        nodup_ids_hourly st, disj_dummy_hourly st, disj_user_hourly st⟩,
      nodup_ids_etc st, ⟨disj_dummy_etc st, disj_user_etc st⟩, disj_hourly_etc st⟩,
      nodup_ids_cron_d st,
      ⟨⟨disj_dummy_cron_d st, disj_user_cron_d st⟩, disj_hourly_cron_d st⟩,
      disj_etc_cron_d st⟩
  · have hu : st.currentUser ≠ "root" := fun he => h ⟨he, hR⟩
    rw [if_pos rfl]
    simp only [List.map_append, List.nodup_append, List.disjoint_append_right,
      List.disjoint_append_left]
    exact ⟨⟨⟨⟨⟨nodup_ids_dummy st, nodup_ids_user st, disj_dummy_user st⟩,
          nodup_ids_root st, disj_dummy_root st, disj_user_root st hu⟩,
        nodup_ids_hourly st, ⟨disj_dummy_hourly st, disj_user_hourly st⟩,
        disj_root_hourly st⟩,
      nodup_ids_etc st, ⟨⟨disj_dummy_etc st, disj_user_etc st⟩, disj_root_etc st⟩,
      disj_hourly_etc st⟩,
      nodup_ids_cron_d st,
      ⟨⟨⟨disj_dummy_cron_d st, disj_user_cron_d st⟩, disj_root_cron_d st⟩,
        disj_hourly_cron_d st⟩,
      disj_etc_cron_d st⟩

theorem scanNext_le (e : CronExpr) :
    ∀ fuel u r, scanNext e fuel u = some r → u ≤ r := by
  intro fuel
  induction fuel with
  | zero => intro u r h; cases h
  | succ f ih =>
    intro u r h
    unfold scanNext at h
    split at h
    · cases h; exact Nat.le_refl _
    · exact Nat.le_of_succ_le (ih (u + 1) r h)

theorem nextRunsAux_spec (e : CronExpr) :
    ∀ n t l, nextRunsAux e t n = some l →
      l.length = n ∧ List.Chain' (· < ·) l ∧ ∀ x ∈ l, t < x := by
  intro n
  induction n with
  | zero =>
    intro t l h
    unfold nextRunsAux at h
    injection h with h
    subst h
    exact ⟨rfl, List.chain'_nil, by intro x hx; cases hx⟩
  | succ n ih =>
    intro t l h
    unfold nextRunsAux at h
    cases hg : croniterGetNext e t with
    | none => rw [hg] at h; cases h
    | some r =>
      rw [hg] at h
      obtain ⟨l2, hl2, rfl⟩ := Option.map_eq_some'.1 h
      obtain ⟨hlen, hch, hgt⟩ := ih r l2 hl2
      have htr : t < r := scanNext_le e cronSearchFuel (t + 1) r hg
      refine ⟨by simp [hlen], ?_, ?_⟩
      · rw [List.chain'_cons']
        exact ⟨fun y hy => hgt y (List.mem_of_mem_head? hy), hch⟩
      · intro x hx
        rcases List.mem_cons.1 hx with rfl | hx2
        · exact htr
        · exact htr.trans (hgt x hx2)

theorem inferCronDFileHit_eq (td : String) (file : CronDFile) :
    inferCronDFileHit td file = (cronDFileCandidates td file).head? := by
  unfold inferCronDFileHit cronDFileCandidates
  split
  · rfl
  · cases file.content with
    | none => rfl
    | some text =>
      unfold lineCandidates
      exact (List.filterMap_head? _ _).symm

theorem inferEtcHit_eq (st : HostState) (td : String) :
    inferEtcHit st td = (etcCandidates st td).head? := by
  unfold inferEtcHit etcCandidates
  split
  · unfold lineCandidates
    exact (List.filterMap_head? _ _).symm
  · rfl

/-! ## The claims -/

/-- C1: the claim says `get_cron_jobs()` never raises past its boundary.  On
the code as written the opposite holds: the two static example records always
reach the final sort, `list.sort(key=_job_sort_key)` computes the key of the
first record, and the `job.source` lookup on the `models.py` model (which
declares no `source` field) raises `AttributeError` — for every host state,
outcome of the external queries and flag setting. -/
theorem c1_get_cron_jobs_always_raises (st : HostState) :
    get_cron_jobs_py st = Except.error "AttributeError: source" := by
  unfold get_cron_jobs_py collect_jobs dummy_jobs
  simp only [List.cons_append]
  rw [List.filter_cons_of_pos (by simp [should_hide_dummy1 st])]
  rw [List.map_cons, mapM_sortkey_error]

/-- C2: the claim says every returned record carries a `source` field
alongside the other seven fields.  The `models.py` model keeps the seven
declared fields of every construction but discards the `source` keyword the
reader passes, and the subsequent `job.source` attribute lookup raises
`AttributeError` instead of yielding a value. -/
theorem c2_model_drops_source_field (j : CronJob) :
    (mkCronJobModel j).id = j.id ∧ (mkCronJobModel j).system = j.system ∧
    (mkCronJobModel j).user = j.user ∧ (mkCronJobModel j).schedule = j.schedule ∧
    (mkCronJobModel j).command = j.command ∧
    (mkCronJobModel j).next_runs = j.next_runs ∧
    (mkCronJobModel j).description = j.description ∧
    cronJobModel_source (mkCronJobModel j) = Except.error "AttributeError: source" :=
  ⟨rfl, rfl, rfl, rfl, rfl, rfl, rfl, rfl⟩

/-- C3: the list returned by `get_cron_jobs()` is sorted ascending by the
key tuple (system, source, user, schedule, command, id), each component
compared lexicographically on its literal string value; the output order is
thereby a deterministic function of the collected records. -/
theorem c3_output_sorted_by_job_sort_key (st : HostState) :
    List.Sorted jobLe (get_cron_jobs st) := by
  letI : IsTotal CronJob jobLe := ⟨fun a b => keyLe_total _ _⟩
  letI : IsTrans CronJob jobLe := ⟨fun a b c h1 h2 => keyLe_trans _ _ _ h1 h2⟩
  exact List.sorted_insertionSort jobLe _

/-- C4 (amended): the `id` values of one `get_cron_jobs()` result are
pairwise distinct for every host state in which the invoking account is not
named `root` while the privileged-account crontab source is enabled.  (In
the excluded case the current-user source and the root source both emit ids
`user-crontab:root:<lineno>`, which collide — see the counterexample.) -/
theorem c4_ids_nodup_unless_root_enabled (st : HostState)
    (h : ¬(st.currentUser = "root" ∧ st.includeRootCrontab = true)) :
    ((get_cron_jobs st).map CronJob.id).Nodup := by
  unfold get_cron_jobs
  have hperm := (List.perm_insertionSort jobLe
      ((collect_jobs st).filter
        (fun j => !should_hide_run_parts_aggregator st j.command))).map CronJob.id
  rw [hperm.nodup_iff]
  exact List.Nodup.sublist ((List.filter_sublist _).map CronJob.id) (nodup_ids_collect st h)

set_option maxRecDepth 1000000 in
/-- C4 counterexample: on a host whose invoking account is `root` with the
privileged-account source enabled and a one-line root crontab, the aggregation
result carries the id `user-crontab:root:1` twice, refuting the claim as
stated. -/
theorem c4_root_id_collision_counterexample :
    ¬ ((get_cron_jobs c4CollisionHost).map CronJob.id).Nodup := by decide

/-- C4 witness: a fully populated host whose invoking account is `alice`
satisfies the amended claim's hypothesis, and its ids are pairwise
distinct. -/
theorem c4_ids_nodup_witness :
    ¬(c4WitnessHost.currentUser = "root" ∧ c4WitnessHost.includeRootCrontab = true) ∧
    ((get_cron_jobs c4WitnessHost).map CronJob.id).Nodup :=
  ⟨by decide, c4_ids_nodup_unless_root_enabled c4WitnessHost (by decide)⟩

/-- C5: for every schedule string that the modelled croniter accepts with all
`n` next fire times found (a valid deterministic 5-field expression), the
calculator returns exactly `n` timestamps in strictly ascending order, each
strictly after the previous computation point and after the start instant,
and the computation is deterministic (a pure function of its arguments). -/
theorem c5_valid_schedule_next_runs (s : String) (t n : Nat)
    (h : scheduleValid s t n) :
    (compute_next_runs s t n).length = n ∧
    List.Chain' (· < ·) (compute_next_runs s t n) ∧
    (∀ x ∈ compute_next_runs s t n, t < x) ∧
    compute_next_runs s t n = compute_next_runs s t n := by
  obtain ⟨e, l, he, hl⟩ := h
  have hc : compute_next_runs s t n = l := by
    unfold compute_next_runs
    rw [he]
    show (nextRunsAux e t n).getD [] = l
    rw [hl]
    rfl
  rw [hc]
  obtain ⟨h1, h2, h3⟩ := nextRunsAux_spec e n t l hl
  exact ⟨h1, h2, h3, rfl⟩

/-- C5 witness: `* * * * *` from instant 0 with count 3 is valid and yields
the three strictly ascending future instants 1, 2, 3. -/
theorem c5_valid_schedule_next_runs_witness :
    scheduleValid "* * * * *" 0 3 ∧
    ((compute_next_runs "* * * * *" 0 3).length = 3 ∧
     List.Chain' (· < ·) (compute_next_runs "* * * * *" 0 3) ∧
     (∀ x ∈ compute_next_runs "* * * * *" 0 3, 0 < x) ∧
     compute_next_runs "* * * * *" 0 3 = compute_next_runs "* * * * *" 0 3) :=
  have hv : scheduleValid "* * * * *" 0 3 :=
    ⟨⟨none, none, none, none, none⟩, [1, 2, 3], rfl, rfl⟩
  ⟨hv, c5_valid_schedule_next_runs "* * * * *" 0 3 hv⟩

/-- C6: for every schedule string the modelled croniter rejects —
syntactically invalid, semantically invalid (no fire time within the search
window), or the fixed-cadence-free `@reboot` — the calculator returns the
empty sequence, and `_safe_next_runs` likewise maps `@reboot` to the empty
sequence; being total functions, neither raises. -/
theorem c6_invalid_schedule_empty (s : String) (t n m : Nat)
    (h : scheduleInvalid s t n) :
    compute_next_runs s t n = [] ∧ safe_next_runs "@reboot" m = [] := by
  constructor
  · unfold compute_next_runs
    rcases h with h | ⟨e, he, hn⟩
    · rw [h]
    · rw [he]
      show (nextRunsAux e t n).getD [] = []
      rw [hn]
      rfl
  · rfl

/-- C6 witness: the spec's own example `99 99 99 99 99` is rejected and
yields the empty sequence, as does `@reboot` through `_safe_next_runs`. -/
theorem c6_invalid_schedule_empty_witness :
    scheduleInvalid "99 99 99 99 99" 0 3 ∧
    (compute_next_runs "99 99 99 99 99" 0 3 = [] ∧ safe_next_runs "@reboot" 0 = []) :=
  ⟨Or.inl rfl, c6_invalid_schedule_empty "99 99 99 99 99" 0 3 0 (Or.inl rfl)⟩

/-- C7 (amended): `parse_user_cron_line` returns `none` exactly when the
line is empty or whitespace-only, a comment, an environment assignment in
the code's sense — the line contains `=` and the text before its first `=`
strips to a non-empty alphanumeric/underscore identifier — a shortcut line
with fewer than 2 tokens, or a standard line with fewer than 6 tokens;
otherwise it returns the shortcut or the 5 joined schedule fields, the
empty user, and the remaining tokens rejoined with single spaces
(`claimedParseUser` restates exactly this). -/
theorem c7_parse_user_line_characterization (line : String) :
    parse_user_cron_line line = claimedParseUser line := by
  unfold parse_user_cron_line claimedParseUser
  dsimp only []
  split
  · rfl
  · split
    · rfl
    · split
      · rfl
      · cases hp : pySplit (pyStrip line) with
        | nil => rfl
        | cons p0 rest => rfl

/-- C7 counterexample: the line `MAILTO = a b c d` has six
whitespace-delimited tokens and its first token `MAILTO` is not of the form
`IDENTIFIER=...`, so the claim as stated predicts a parsed record; the code
nevertheless returns `none`, because its environment-assignment rule looks
at the text before the first `=` of the whole line. -/
theorem c7_env_assignment_counterexample :
    parse_user_cron_line "MAILTO = a b c d" = none ∧
    claimC7NoneCondB "MAILTO = a b c d" = false :=
  ⟨rfl, rfl⟩

/-- C8: with the include-aggregator-entries flag off, no record of the
output has a command that both contains `run-parts` and names one of the
four convention directories; with the flag on, the suppression filter
removes no record at all. -/
theorem c8_run_parts_suppression (st : HostState) :
    (st.includeRunParts = false → ∀ j ∈ get_cron_jobs st,
        ¬(pyContainsStr j.command "run-parts" = true ∧
          (["/etc/cron.hourly", "/etc/cron.daily", "/etc/cron.weekly",
            "/etc/cron.monthly"].any (fun t => pyContainsStr j.command t)) = true)) ∧
    (st.includeRunParts = true →
        (collect_jobs st).filter
            (fun j => !should_hide_run_parts_aggregator st j.command) = collect_jobs st) := by
  constructor
  · intro hOff j hj hbad
    obtain ⟨h1, h2⟩ := hbad
    have hjmem : j ∈ (collect_jobs st).filter
        (fun j => !should_hide_run_parts_aggregator st j.command) :=
      (List.perm_insertionSort jobLe _).subset hj
    have hsh : should_hide_run_parts_aggregator st j.command = false := by
      have := (List.mem_filter.1 hjmem).2
      simpa using this
    unfold should_hide_run_parts_aggregator at hsh
    rw [hOff] at hsh
    simp only [if_false, Bool.false_eq_true] at hsh
    rw [h1] at hsh
    simp at hsh
    exact absurd h2 (by simp [hsh])
  · intro hOn
    apply List.filter_eq_self.2
    intro j hj
    simp [should_hide_run_parts_aggregator, hOn]

/-- C9: schedule inference returns the head of the spec's search sequence —
the system-dialect-parseable run-parts lines for the target directory, in
sorted `/etc/cron.d` files first and then `/etc/crontab`, each with its
`file:lineno` provenance — and the fixed fallback `("0 * * * *", "default")`
when that sequence is empty. -/
theorem c9_infer_first_match_or_default (st : HostState) (td : String) :
    infer_schedule_from_run_parts st td =
      ((inferSearchCandidates st td).head?).getD ("0 * * * *", "default") := by
  unfold infer_schedule_from_run_parts inferSearchCandidates
  rw [head?_append_or]
  cases hd : st.cronDIsDir with
  | false =>
    simp only [Bool.false_eq_true, if_false, List.head?_nil, Option.none_or]
    rw [inferEtcHit_eq]
    cases h : (etcCandidates st td).head? <;> rfl
  | true =>
    simp only [if_true]
    have hfun : inferCronDFileHit td = fun file => (cronDFileCandidates td file).head? :=
      funext (inferCronDFileHit_eq td)
    rw [hfun, findSome?_head?_flatMap]
    cases hA : ((sortedCronD st).flatMap (cronDFileCandidates td)).head? with
    | some r => rfl
    | none =>
      simp only [Option.none_or]
      rw [inferEtcHit_eq]
      cases h : (etcCandidates st td).head? <;> rfl

/-- C10: every record of the current-account crontab source carries the
invoking account's name as its user (the empty user of the user-dialect
parser is never used) and the source tag `user-crontab`; every record of the
privileged-account source carries user `root` and source `root-crontab`. -/
theorem c10_crontab_source_user_fields (st : HostState) :
    (∀ j ∈ get_current_user_crontab_jobs st,
        j.user = st.currentUser ∧ j.source = "user-crontab") ∧
    (∀ j ∈ get_root_crontab_jobs st, j.user = "root" ∧ j.source = "root-crontab") := by
  constructor
  · intro j hj
    unfold get_current_user_crontab_jobs at hj
    split at hj
    · cases hj
    · obtain ⟨pr, hpr, hj2⟩ := List.mem_filterMap.1 hj
      obtain ⟨p, hp, rfl⟩ := Option.map_eq_some'.1 hj2
      exact ⟨rfl, rfl⟩
  · intro j hj
    unfold get_root_crontab_jobs at hj
    split at hj
    · cases hj
    · obtain ⟨pr, hpr, hj2⟩ := List.mem_filterMap.1 hj
      obtain ⟨p, hp, rfl⟩ := Option.map_eq_some'.1 hj2
      exact ⟨rfl, rfl⟩
